import Mathlib

/-!
Verification development for the libjuice ICE agent core.

The repository snapshot under scrutiny ships only the header `src/agent.h`
(constants, data-structure declarations and function prototypes); the
implementation files (`agent.c`, `ice.c`, `stun.c`) are absent, so the
behaviour of the declared functions is modelled from the natural-language
specification (`spec.md`), as indicated on each definition.  Constants are
taken directly from `src/agent.h`.
-/

/-! ## Constants from src/agent.h -/

/-- From src/agent.h line 41: `#define MIN_STUN_RETRANSMISSION_TIMEOUT 500` (msecs). -/
def MIN_STUN_RETRANSMISSION_TIMEOUT : Int := 500

/-- From src/agent.h line 42: `#define MAX_STUN_RETRANSMISSION_COUNT 5` (comment: will give ~30s). -/
def MAX_STUN_RETRANSMISSION_COUNT : Int := 5

/-- From src/agent.h line 46: `#define STUN_PACING_TIME 50` (msecs). -/
def STUN_PACING_TIME : Int := 50

/-- From src/agent.h line 50: `#define STUN_KEEPALIVE_PERIOD 15000` (msecs). -/
def STUN_KEEPALIVE_PERIOD : Int := 15000

/-- From src/agent.h line 53: `#define ICE_FAIL_TIMEOUT 30000` (msecs). -/
def ICE_FAIL_TIMEOUT : Int := 30000

/-- From src/agent.h line 55: `#define MAX_STUN_SERVER_RECORDS_COUNT 2`. -/
def MAX_STUN_SERVER_RECORDS_COUNT : Nat := 2

/-- From src/agent.h line 59: `#define MAX_CANDIDATE_PAIRS_COUNT (ICE_MAX_CANDIDATES_COUNT * 2)`.
`ICE_MAX_CANDIDATES_COUNT` is defined in `ice.h`, which is not in the snapshot, so it
is kept as a parameter `iceMax`. -/
def MAX_CANDIDATE_PAIRS_COUNT (iceMax : Nat) : Nat := iceMax * 2

/-- From src/agent.h line 56:
`#define MAX_STUN_ENTRIES_COUNT (MAX_CANDIDATE_PAIRS_COUNT + MAX_STUN_SERVER_RECORDS_COUNT)`. -/
def MAX_STUN_ENTRIES_COUNT (iceMax : Nat) : Nat :=
  MAX_CANDIDATE_PAIRS_COUNT iceMax + MAX_STUN_SERVER_RECORDS_COUNT

/-- From src/agent.h line 57:
`#define MAX_HOST_CANDIDATES_COUNT (ICE_MAX_CANDIDATES_COUNT - MAX_STUN_SERVER_RECORDS_COUNT - 2)`. -/
def MAX_HOST_CANDIDATES_COUNT (iceMax : Nat) : Nat :=
  iceMax - MAX_STUN_SERVER_RECORDS_COUNT - 2

/-! ## Agent mode (src/agent.h lines 64-68) -/

/-- The `agent_mode_t` enumeration from src/agent.h. -/
inductive agent_mode
  | unknown
  | controlled
  | controlling
deriving DecidableEq, Repr

/-- Role flip performed on ICE role conflict (RFC 8445 §7.3.1.1; spec §4.4:
"flip role, recompute priorities"). -/
def flip_mode : agent_mode → agent_mode
  | agent_mode.unknown => agent_mode.unknown
  | agent_mode.controlled => agent_mode.controlling
  | agent_mode.controlling => agent_mode.controlled

/-! ## Candidate pair priority (claim C2) -/

/-- Modelled from the spec: `ice.c` (function `ice_compute_candidate_pair_priority`) is not in
the snapshot; spec §3 gives the RFC 8445 §6.1.2.3 formula
`(2^32 · min(G,D)) + 2·max(G,D) + (G>D?1:0)` where `G` is the controlling side's
candidate priority and `D` the controlled side's. -/
def pair_priority (g d : Nat) : Nat :=
  2 ^ 32 * min g d + 2 * max g d + (if d < g then 1 else 0)

/-- The controlling-side priority `G` of a pair, given the agent's role and the
local/remote member priorities. -/
def controlling_priority (m : agent_mode) (localPrio remotePrio : Nat) : Nat :=
  match m with
  | agent_mode.controlling => localPrio
  | _ => remotePrio

/-- The controlled-side priority `D` of a pair, given the agent's role and the
local/remote member priorities. -/
def controlled_priority (m : agent_mode) (localPrio remotePrio : Nat) : Nat :=
  match m with
  | agent_mode.controlling => remotePrio
  | _ => localPrio

/-- Modelled from the spec: priority of a pair as computed by the agent in role `m`
(spec §3: "Pair priority is a pure function of member priorities and roles"). -/
def relative_pair_priority (m : agent_mode) (localPrio remotePrio : Nat) : Nat :=
  pair_priority (controlling_priority m localPrio remotePrio)
    (controlled_priority m localPrio remotePrio)

/-! ## STUN entries and retransmission (claims C3, C4, C7) -/

/-- The `agent_stun_entry_type_t` enumeration from src/agent.h lines 70-73. -/
inductive stun_entry_type
  | server
  | check
deriving DecidableEq, Repr

/-- ICE candidate pair states (spec §3: frozen, waiting, in-progress, succeeded, failed). -/
inductive pair_state
  | frozen
  | waiting
  | in_progress
  | succeeded
  | failed
deriving DecidableEq, Repr

/-- The scheduling fields of `agent_stun_entry_t` (src/agent.h lines 75-89), together
with the state of the attached pair for a CHECK entry.  Timestamps are in
milliseconds (`timestamp_t` is `int64_t`). -/
structure agent_stun_entry where
  type : stun_entry_type
  next_transmission : Int
  retransmission_timeout : Int
  retransmissions : Int
  finished : Bool
  armed : Bool
  pair_st : pair_state
deriving DecidableEq, Repr

/-- Result of one bookkeeping visit to one entry: the updated entry, whether a
Binding request was sent, and whether gathering for this entry's server must be
marked done. -/
structure bookkeeping_result where
  entry : agent_stun_entry
  sent : Bool
  update_gathering : Bool
deriving DecidableEq, Repr

/-- Modelled from the spec: `agent_bookkeeping` in `agent.c` is not in the snapshot
(src/agent.h line 135 only declares it).  Spec §4.3: for each unfinished entry whose
`next_transmission ≤ now`, if retransmissions remain send a Binding request, set
`next_transmission = now + retransmission_timeout`, double the timeout and decrement
the counter; otherwise mark the entry finished, transition a CHECK entry's pair to
failed, and for a SERVER entry mark gathering for that server done.  The doubling is
uncapped: the comment on `MAX_STUN_RETRANSMISSION_COUNT` in src/agent.h line 42
("will give ~30s") and the retransmission sequence of spec §8.4
(0, 500, 1500, 3500, 7500, 15500 ms) both require pure doubling from 500 ms. -/
def agent_bookkeeping_entry (now : Int) (e : agent_stun_entry) : bookkeeping_result :=
  if e.finished || decide (now < e.next_transmission) then ⟨e, false, false⟩
  else if 0 ≤ e.retransmissions then
    ⟨{ e with
        next_transmission := now + e.retransmission_timeout,
        retransmission_timeout := e.retransmission_timeout * 2,
        retransmissions := e.retransmissions - 1 },
      true, false⟩
  else
    ⟨{ e with
        finished := true,
        pair_st := if e.type = stun_entry_type.check then pair_state.failed else e.pair_st },
      false, e.type = stun_entry_type.server⟩

/-- One event-loop wake-up at exactly the entry's deadline: run the bookkeeping
step with `now = e.next_transmission` and report the send timestamp if a Binding
request went out. -/
def fire (e : agent_stun_entry) : agent_stun_entry × Option Int :=
  let r := agent_bookkeeping_entry e.next_transmission e
  (r.entry, if r.sent then some e.next_transmission else none)

/-- Collect the Binding-request send timestamps over `fuel` deadline wake-ups. -/
def send_times : Nat → agent_stun_entry → List Int
  | 0, _ => []
  | fuel + 1, e =>
    match fire e with
    | (e2, some t) => t :: send_times fuel e2
    | (e2, none) => send_times fuel e2

/-- A freshly armed CHECK entry whose first transmission is due at time 0, with
RTO = `MIN_STUN_RETRANSMISSION_TIMEOUT` and `MAX_STUN_RETRANSMISSION_COUNT`
retransmissions remaining (spec §4.3, src/agent.h lines 41-42). -/
def fresh_check_entry : agent_stun_entry :=
  { type := stun_entry_type.check
    next_transmission := 0
    retransmission_timeout := MIN_STUN_RETRANSMISSION_TIMEOUT
    retransmissions := MAX_STUN_RETRANSMISSION_COUNT
    finished := false
    armed := true
    pair_st := pair_state.in_progress }

/-- Modelled from the spec: `agent_arm_transmission` in `agent.c` is not in the snapshot
(src/agent.h line 152 only declares it).  Spec §4.3: it sets `next_transmission`
to `now + delay` and atomically sets `armed`; if `armed` was already set the call
is a no-op. -/
def agent_arm_transmission (now delay : Int) (e : agent_stun_entry) : agent_stun_entry :=
  if e.armed then e
  else { e with next_transmission := now + delay, armed := true }

/-! ## Send fast path (claim C6) -/

/-- The error kinds of spec §7.  User-facing operations return a code. -/
inductive juice_error
  | success
  | invalid_argument
  | protocol
  | not_found
  | invalid_state
  | full
  | io_error
  | timeout
deriving DecidableEq, Repr

/-- The user-visible agent states (spec §6). -/
inductive juice_state
  | disconnected
  | gathering
  | connecting
  | connected
  | completed
  | failed
deriving DecidableEq, Repr

/-- An address record (spec §3): family/address/port abstracted to a host
number and a port. -/
structure addr_record where
  host : Nat
  port : Nat
deriving DecidableEq, Repr

/-- The agent state visible to the send fast path: the atomic `selected_entry`
pointer is modelled by the optional address record of the selected entry
(src/agent.h lines 107-111), alongside the other mutable agent fields that
`agent_send` must not touch. -/
structure send_agent where
  state : juice_state
  mode : agent_mode
  selected_entry : Option addr_record
  gathering_done : Bool
deriving DecidableEq, Repr

/-- Modelled from the spec: `agent_send` in `agent.c` is not in the snapshot
(src/agent.h line 126 only declares it).  Spec §6: "fails with `invalid_state`
if no `selected_entry`; otherwise writes via the socket to the selected remote
address".  The result is the returned error code, the agent state after the
call, and the datagram handed to the socket (destination and payload), if any. -/
def agent_send (a : send_agent) (data : List Nat) :
    juice_error × send_agent × Option (addr_record × List Nat) :=
  match a.selected_entry with
  | none => (juice_error.invalid_state, a, none)
  | some r => (juice_error.success, a, some (r, data))

/-! ## Claim theorems: C2, C3, C4, C6, C7 -/

/-- C2: the 64-bit pair priority equals `(2^32·min(G,D)) + 2·max(G,D) + (G>D?1:0)`
where `G` and `D` are the controlling-side and controlled-side candidate priorities; it is a
pure function of the member priorities and the role, and after a role change the
recomputed priority is the same formula with `G` and `D` swapped. -/
theorem c2_pair_priority_formula :
    (∀ g d, pair_priority g d =
      2 ^ 32 * min g d + 2 * max g d + (if d < g then 1 else 0)) ∧
    (∀ (m : agent_mode) (lp rp : Nat), m ≠ agent_mode.unknown →
      relative_pair_priority m lp rp =
        pair_priority (controlling_priority m lp rp) (controlled_priority m lp rp) ∧
      relative_pair_priority (flip_mode m) lp rp =
        pair_priority (controlled_priority m lp rp) (controlling_priority m lp rp)) := by
  refine ⟨fun g d => rfl, fun m lp rp hm => ?_⟩
  cases m with
  | unknown => exact absurd rfl hm
  | controlled => exact ⟨rfl, rfl⟩
  | controlling => exact ⟨rfl, rfl⟩

/-- C2 witness: the theorem applied at role controlling with member priorities 7 and 3. -/
theorem c2_pair_priority_witness :
    relative_pair_priority agent_mode.controlling 7 3 = pair_priority 7 3 ∧
    relative_pair_priority (flip_mode agent_mode.controlling) 7 3 = pair_priority 3 7 := by
  have h := (c2_pair_priority_formula.2 agent_mode.controlling 7 3 (by decide))
  exact ⟨h.1, h.2⟩

/-- C3: a STUN entry with RTO = 500 ms and 5 retransmissions whose peer never
responds sends Binding requests exactly at 0, 500, 1500, 3500, 7500, 15500 ms
relative to the first send (event-driven schedule; 20 wake-ups are more than
enough to exhaust the entry, after which no further request is sent). -/
theorem c3_retransmission_schedule :
    send_times 20 fresh_check_entry = [0, 500, 1500, 3500, 7500, 15500] := by decide

/-- C4 (amended: the retransmission timeout is doubled without any cap): in a
bookkeeping pass, a due unfinished entry with retransmissions remaining sends a
Binding request, gets `next_transmission = now + retransmission_timeout`, its
timeout doubled and its counter decremented; with none remaining it is marked
finished, a CHECK entry's pair transitions to failed, and a SERVER entry marks
gathering for that server done. -/
theorem c4_bookkeeping_step (now : Int) (e : agent_stun_entry)
    (hfin : e.finished = false) (hdue : e.next_transmission ≤ now) :
    (0 ≤ e.retransmissions →
      (agent_bookkeeping_entry now e).sent = true ∧
      (agent_bookkeeping_entry now e).entry.next_transmission =
        now + e.retransmission_timeout ∧
      (agent_bookkeeping_entry now e).entry.retransmission_timeout =
        e.retransmission_timeout * 2 ∧
      (agent_bookkeeping_entry now e).entry.retransmissions = e.retransmissions - 1 ∧
      (agent_bookkeeping_entry now e).entry.finished = false) ∧
    (e.retransmissions < 0 →
      (agent_bookkeeping_entry now e).sent = false ∧
      (agent_bookkeeping_entry now e).entry.finished = true ∧
      (e.type = stun_entry_type.check →
        (agent_bookkeeping_entry now e).entry.pair_st = pair_state.failed) ∧
      (e.type = stun_entry_type.server →
        (agent_bookkeeping_entry now e).update_gathering = true)) := by
  have hnl : decide (now < e.next_transmission) = false := by
    simpa using not_lt.mpr hdue
  constructor
  · intro h0
    simp [agent_bookkeeping_entry, hfin, hnl, h0]
  · intro hneg
    have h0 : ¬ (0 ≤ e.retransmissions) := not_le.mpr hneg
    refine ⟨?_, ?_, ?_, ?_⟩
    · simp [agent_bookkeeping_entry, hfin, hnl, h0]
    · simp [agent_bookkeeping_entry, hfin, hnl, h0]
    · intro ht
      simp [agent_bookkeeping_entry, hfin, hnl, h0, ht]
    · intro ht
      simp [agent_bookkeeping_entry, hfin, hnl, h0, ht]

/-- C4 counterexample to the claim as stated: after the first transmission of a
fresh CHECK entry the timeout is 1000 ms; the next bookkeeping step doubles it
to 2000 ms, whereas the claimed cap at 1600 ms would give
`min (1000·2) 1600 = 1600`. -/
theorem c4_no_cap_counterexample :
    (agent_bookkeeping_entry 500 (fire fresh_check_entry).1).entry.retransmission_timeout
      = 2000 ∧
    min ((fire fresh_check_entry).1.retransmission_timeout * 2) 1600 ≠ 2000 := by decide

/-- C4 witness: the amended theorem applied to a fresh due entry (sending branch)
and to an exhausted SERVER entry (failure branch). -/
theorem c4_bookkeeping_witness :
    ((agent_bookkeeping_entry 0 fresh_check_entry).sent = true ∧
      (agent_bookkeeping_entry 0 fresh_check_entry).entry.retransmission_timeout = 1000) ∧
    ((agent_bookkeeping_entry 31500
        { fresh_check_entry with
            type := stun_entry_type.server,
            next_transmission := 31500,
            retransmission_timeout := 16000,
            retransmissions := -1 }).update_gathering = true) := by
  have h1 := c4_bookkeeping_step 0 fresh_check_entry rfl (by decide)
  have h2 := c4_bookkeeping_step 31500
    { fresh_check_entry with
        type := stun_entry_type.server,
        next_transmission := 31500,
        retransmission_timeout := 16000,
        retransmissions := -1 } rfl (by decide)
  exact ⟨⟨(h1.1 (by decide)).1, (h1.1 (by decide)).2.2.1⟩, (h2.2 (by decide)).2.2.2 rfl⟩

/-- C6: `agent_send` returns `invalid_state` exactly when `selected_entry` is
unset; when it is set, the payload is written to the selected remote address and
the agent state is unchanged. -/
theorem c6_agent_send (a : send_agent) (data : List Nat) :
    ((agent_send a data).1 = juice_error.invalid_state ↔ a.selected_entry = none) ∧
    (∀ r, a.selected_entry = some r →
      agent_send a data = (juice_error.success, a, some (r, data))) := by
  cases h : a.selected_entry with
  | none => simp [agent_send, h]
  | some r => simp [agent_send, h]

/-- C6 witness: the theorem applied to an agent with a selected entry and to one
without. -/
theorem c6_agent_send_witness :
    agent_send
        { state := juice_state.connected, mode := agent_mode.controlling,
          selected_entry := some ⟨1, 2⟩, gathering_done := true } [10, 20]
      = (juice_error.success,
          { state := juice_state.connected, mode := agent_mode.controlling,
            selected_entry := some ⟨1, 2⟩, gathering_done := true },
          some (⟨1, 2⟩, [10, 20])) ∧
    (agent_send
        { state := juice_state.connecting, mode := agent_mode.controlling,
          selected_entry := none, gathering_done := true } [10, 20]).1
      = juice_error.invalid_state := by
  constructor
  · exact (c6_agent_send _ [10, 20]).2 ⟨1, 2⟩ rfl
  · exact (c6_agent_send _ [10, 20]).1.mpr rfl

/-- C7: `agent_arm_transmission` is a no-op while `armed` is set, so repeated
calls coalesce into one queued send; on an unarmed entry it sets
`next_transmission = now + delay` and sets `armed`. -/
theorem c7_arm_transmission_idempotent :
    (∀ (now delay : Int) (e : agent_stun_entry), e.armed = true →
      agent_arm_transmission now delay e = e) ∧
    (∀ (n1 d1 n2 d2 : Int) (e : agent_stun_entry),
      agent_arm_transmission n2 d2 (agent_arm_transmission n1 d1 e) =
        agent_arm_transmission n1 d1 e) ∧
    (∀ (now delay : Int) (e : agent_stun_entry), e.armed = false →
      (agent_arm_transmission now delay e).next_transmission = now + delay ∧
      (agent_arm_transmission now delay e).armed = true) := by
  refine ⟨?_, ?_, ?_⟩
  · intro now delay e h
    simp [agent_arm_transmission, h]
  · intro n1 d1 n2 d2 e
    by_cases h : e.armed <;> simp [agent_arm_transmission, h]
  · intro now delay e h
    simp [agent_arm_transmission, h]

/-- C7 witness: the theorem applied to an armed entry (no-op), to a double call,
and to an unarmed entry. -/
theorem c7_arm_transmission_witness :
    agent_arm_transmission 100 50 fresh_check_entry = fresh_check_entry ∧
    agent_arm_transmission 200 50
        (agent_arm_transmission 100 50 { fresh_check_entry with armed := false }) =
      agent_arm_transmission 100 50 { fresh_check_entry with armed := false } ∧
    (agent_arm_transmission 100 50
        { fresh_check_entry with armed := false }).next_transmission = 150 := by
  refine ⟨c7_arm_transmission_idempotent.1 100 50 fresh_check_entry rfl,
    c7_arm_transmission_idempotent.2.1 100 50 200 50 { fresh_check_entry with armed := false },
    ?_⟩
  exact (c7_arm_transmission_idempotent.2.2 100 50
    { fresh_check_entry with armed := false } rfl).1

/-! ## Candidate pairs and the ordered view (claim C5) -/

/-- The fields of `ice_candidate_pair_t` relevant to ordering: the two member
priorities, the stored 64-bit pair priority, and the insertion position `seq`
in the pair table (spec §3, src/agent.h line 101). -/
structure ice_candidate_pair where
  local_priority : Nat
  remote_priority : Nat
  priority : Nat
  seq : Nat
deriving DecidableEq, Repr

/-- Ordering of the `ordered_pairs` view (spec §4.2: "sorted by descending pair
priority; ties broken by insertion order"): `a` comes before `b` when `a` has the
larger priority, or equal priority and the earlier insertion position. -/
def pair_before (a b : ice_candidate_pair) : Prop :=
  b.priority < a.priority ∨ (a.priority = b.priority ∧ a.seq ≤ b.seq)

instance : DecidableRel pair_before := fun a b => by
  unfold pair_before; infer_instance

instance : IsTotal ice_candidate_pair pair_before :=
  ⟨by intro a b; unfold pair_before; omega⟩

instance : IsTrans ice_candidate_pair pair_before :=
  ⟨by intro a b c; unfold pair_before; omega⟩

/-- Modelled from the spec: `agent_update_ordered_pairs` in `agent.c` is not in the
snapshot (src/agent.h line 155 only declares it).  Spec §4.2: it rebuilds
`ordered_pairs` as the pair table sorted by descending pair priority, ties broken
by insertion order; the C function is an insertion sort over the table. -/
def agent_update_ordered_pairs (pairs : List ice_candidate_pair) : List ice_candidate_pair :=
  List.insertionSort pair_before pairs

/-- The agent fields involved in pair bookkeeping: role, the two candidate lists
(as priorities), the pair table in insertion order, and the ordered view
(src/agent.h lines 91-104). -/
structure pairs_agent where
  mode : agent_mode
  local_candidates : List Nat
  remote_candidates : List Nat
  candidate_pairs : List ice_candidate_pair
  ordered_pairs : List ice_candidate_pair
deriving Repr

/-- The operations of spec §8.1: adding a local candidate, adding a remote
candidate, and a role change. -/
inductive pair_op
  | add_local (p : Nat)
  | add_remote (p : Nat)
  | set_role (m : agent_mode)
deriving Repr

/-- A pair built from a local and a remote candidate priority, at insertion
position `sq`, with its pair priority computed for role `m`. -/
def make_pair (m : agent_mode) (lp rp sq : Nat) : ice_candidate_pair :=
  ⟨lp, rp, relative_pair_priority m lp rp, sq⟩

/-- Modelled from the spec: pairs formed when a remote candidate arrives
(spec §4.2: "for each local candidate forms a pair"), appended after the
existing `startSeq` pairs. -/
def new_pairs (m : agent_mode) (locals : List Nat) (rp startSeq : Nat) :
    List ice_candidate_pair :=
  locals.enum.map (fun iz => make_pair m iz.2 rp (startSeq + iz.1))

/-- Recomputation of one pair's priority for role `m` (spec §3: "on role change
all pair priorities recompute"). -/
def recompute_pair (m : agent_mode) (p : ice_candidate_pair) : ice_candidate_pair :=
  { p with priority := relative_pair_priority m p.local_priority p.remote_priority }

/-- Modelled from the spec: `agent_update_candidate_pairs` in `agent.c` is not in the
snapshot (src/agent.h line 154 only declares it); on a role change it recomputes
every pair's priority. -/
def agent_update_candidate_pairs (m : agent_mode) (pairs : List ice_candidate_pair) :
    List ice_candidate_pair :=
  pairs.map (recompute_pair m)

/-- Modelled from the spec: one pair-bookkeeping operation (spec §4.2);
`update_ordered_pairs` rebuilds the view whenever a pair is added or the role
changes. -/
def apply_pair_op (a : pairs_agent) (op : pair_op) : pairs_agent :=
  match op with
  | pair_op.add_local p =>
    let a2 := { a with local_candidates := a.local_candidates ++ [p] }
    { a2 with ordered_pairs := agent_update_ordered_pairs a2.candidate_pairs }
  | pair_op.add_remote p =>
    let pairs := a.candidate_pairs ++
      new_pairs a.mode a.local_candidates p a.candidate_pairs.length
    { a with remote_candidates := a.remote_candidates ++ [p],
             candidate_pairs := pairs,
             ordered_pairs := agent_update_ordered_pairs pairs }
  | pair_op.set_role m =>
    let pairs := agent_update_candidate_pairs m a.candidate_pairs
    { a with mode := m, candidate_pairs := pairs,
             ordered_pairs := agent_update_ordered_pairs pairs }

/-- A freshly created agent: no candidates, no pairs, role unknown. -/
def init_pairs_agent : pairs_agent := ⟨agent_mode.unknown, [], [], [], []⟩

/-- Run a sequence of pair-bookkeeping operations from the fresh agent. -/
def run_pair_ops (ops : List pair_op) : pairs_agent :=
  ops.foldl apply_pair_op init_pairs_agent

/-- After every operation the ordered view is the rebuilt sort of the pair table. -/
theorem ordered_view_eq (ops : List pair_op) :
    (run_pair_ops ops).ordered_pairs =
      agent_update_ordered_pairs (run_pair_ops ops).candidate_pairs := by
  suffices h : ∀ (l : List pair_op) (a : pairs_agent),
      a.ordered_pairs = agent_update_ordered_pairs a.candidate_pairs →
      (l.foldl apply_pair_op a).ordered_pairs =
        agent_update_ordered_pairs (l.foldl apply_pair_op a).candidate_pairs by
    exact h ops init_pairs_agent rfl
  intro l
  induction l with
  | nil => intro a ha; simpa using ha
  | cons op t ih =>
    intro a ha
    have hstep : (apply_pair_op a op).ordered_pairs =
        agent_update_ordered_pairs (apply_pair_op a op).candidate_pairs := by
      cases op <;> rfl
    simpa using ih (apply_pair_op a op) hstep

/-- C5: after every sequence of local and remote candidate additions and role
changes, `ordered_pairs` is a permutation of the pair table (pairs are never
removed, so all pairs are live) sorted in descending pair-priority order with
ties broken by insertion order. -/
theorem c5_ordered_pairs_sorted_perm (ops : List pair_op) :
    List.Sorted pair_before (run_pair_ops ops).ordered_pairs ∧
    (run_pair_ops ops).ordered_pairs.Perm (run_pair_ops ops).candidate_pairs := by
  rw [ordered_view_eq]
  exact ⟨List.sorted_insertionSort pair_before _, List.perm_insertionSort pair_before _⟩

/-! ## Nomination and pair selection (claim C1) -/

/-- The nomination-relevant fields of a candidate pair: its check state and its
`nominated` flag (spec §3). -/
structure nom_pair where
  st : pair_state
  nominated : Bool
deriving DecidableEq, Repr

/-- The nomination-relevant fields of the agent: role, the pair table
(by index), the `selected_pair` index, and the user-visible state
(src/agent.h lines 91-116). -/
structure nom_agent where
  mode : agent_mode
  pairs : List nom_pair
  selected_pair : Option Nat
  state : juice_state
deriving DecidableEq, Repr

/-- Replace the check state of the pair at index `i`. -/
def set_pair_st (l : List nom_pair) (i : Nat) (s : pair_state) : List nom_pair :=
  match l, i with
  | [], _ => []
  | p :: t, 0 => { p with st := s } :: t
  | p :: t, n + 1 => p :: set_pair_st t n s

/-- Set the `nominated` flag of the pair at index `i`. -/
def set_pair_nominated (l : List nom_pair) (i : Nat) : List nom_pair :=
  match l, i with
  | [], _ => []
  | p :: t, 0 => { p with nominated := true } :: t
  | p :: t, n + 1 => p :: set_pair_nominated t n

/-- Number of pairs with `nominated = true`. -/
def nom_count : List nom_pair → Nat
  | [] => 0
  | p :: t => (if p.nominated then 1 else 0) + nom_count t

/-- Number of nominated pairs of an agent. -/
def nominated_count (a : nom_agent) : Nat := nom_count a.pairs

/-- Modelled from the spec: the nomination-relevant transitions of `agent.c`
(`agent_process_stun_binding` and state handling), which is not in the snapshot.
Spec §4.4: a pair is nominated only after it succeeded and, since renomination
after a pair has been nominated is a non-goal (spec §1), only while no pair is
nominated yet; a nominated succeeded pair becomes `selected_pair` (set once — it
is "never replaced", spec §3); pairs are appended in `frozen`; check results move
pair states; the role may be set or flipped; the user-visible state may change,
including to `failed`. -/
inductive nom_step : nom_agent → nom_agent → Prop
  | add_pair (a : nom_agent) :
      nom_step a { a with pairs := a.pairs ++ [⟨pair_state.frozen, false⟩] }
  | check_transition (a : nom_agent) (i : Nat) (s : pair_state) :
      nom_step a { a with pairs := set_pair_st a.pairs i s }
  | set_role (a : nom_agent) (m : agent_mode) :
      nom_step a { a with mode := m }
  | nominate (a : nom_agent) (i : Nat) (p : nom_pair)
      (hp : a.pairs[i]? = some p) (hst : p.st = pair_state.succeeded)
      (hnone : ∀ q ∈ a.pairs, q.nominated = false) :
      nom_step a { a with pairs := set_pair_nominated a.pairs i }
  | select (a : nom_agent) (i : Nat) (p : nom_pair)
      (hp : a.pairs[i]? = some p) (hnom : p.nominated = true)
      (hst : p.st = pair_state.succeeded) (hsel : a.selected_pair = none) :
      nom_step a { a with selected_pair := some i, state := juice_state.connected }
  | change_state (a : nom_agent) (s : juice_state) :
      nom_step a { a with state := s }

/-- A freshly created agent (spec §3 lifecycles). -/
def init_nom_agent : nom_agent := ⟨agent_mode.unknown, [], none, juice_state.disconnected⟩

/-- States reachable from the fresh agent by nomination-relevant transitions. -/
def nom_reachable (a : nom_agent) : Prop :=
  Relation.ReflTransGen nom_step init_nom_agent a

theorem nom_count_append (l1 l2 : List nom_pair) :
    nom_count (l1 ++ l2) = nom_count l1 + nom_count l2 := by
  induction l1 with
  | nil => simp [nom_count]
  | cons p t ih => simp [nom_count, ih]; omega

theorem nom_count_set_st (l : List nom_pair) (i : Nat) (s : pair_state) :
    nom_count (set_pair_st l i s) = nom_count l := by
  induction l generalizing i with
  | nil => rfl
  | cons p t ih =>
    cases i with
    | zero => rfl
    | succ n => simp [set_pair_st, nom_count, ih n]

theorem nom_count_set_nominated_le (l : List nom_pair) (i : Nat) :
    nom_count (set_pair_nominated l i) ≤ nom_count l + 1 := by
  induction l generalizing i with
  | nil => simp [set_pair_nominated]
  | cons p t ih =>
    cases i with
    | zero =>
      simp only [set_pair_nominated, nom_count]
      cases hp : p.nominated <;> simp [Nat.add_comm]
    | succ n =>
      simp only [set_pair_nominated, nom_count]
      have := ih n
      omega

theorem nom_count_all_false {l : List nom_pair} (h : ∀ q ∈ l, q.nominated = false) :
    nom_count l = 0 := by
  induction l with
  | nil => rfl
  | cons p t ih =>
    have hp : p.nominated = false := h p (by simp)
    have ht : nom_count t = 0 := ih (fun q hq => h q (by simp [hq]))
    simp [nom_count, hp, ht]

/-- Each transition preserves "at most one nominated pair". -/
theorem step_nominated_le (a b : nom_agent) (h : nom_step a b)
    (ha : nominated_count a ≤ 1) : nominated_count b ≤ 1 := by
  cases h with
  | add_pair =>
    simp only [nominated_count, nom_count_append] at *
    simp [nom_count]
    omega
  | check_transition i s =>
    simpa [nominated_count, nom_count_set_st] using ha
  | set_role m => exact ha
  | nominate i p hp hst hnone =>
    have h0 : nom_count a.pairs = 0 := nom_count_all_false hnone
    have := nom_count_set_nominated_le a.pairs i
    simp only [nominated_count] at *
    omega
  | select i p hp hnom hst hsel => exact ha
  | change_state s => exact ha

/-- No transition replaces a set `selected_pair`. -/
theorem step_selected_stable (a b : nom_agent) (i : Nat) (h : nom_step a b)
    (ha : a.selected_pair = some i) : b.selected_pair = some i := by
  cases h with
  | select j p hp hnom hst hsel => rw [hsel] at ha; exact absurd ha (by simp)
  | add_pair => exact ha
  | check_transition j s => exact ha
  | set_role m => exact ha
  | nominate j p hp hst hnone => exact ha
  | change_state s => exact ha

/-- C1: in every reachable agent state, at most one pair is nominated on the
controlling side; and once `selected_pair` is set it never changes for the
remainder of the lifetime (in particular it is unchanged whether or not the
agent later transitions to failed). -/
theorem c1_nomination_unique_selected_stable :
    (∀ a : nom_agent, nom_reachable a → a.mode = agent_mode.controlling →
      nominated_count a ≤ 1) ∧
    (∀ (a b : nom_agent) (i : Nat), Relation.ReflTransGen nom_step a b →
      a.selected_pair = some i → b.selected_pair = some i) := by
  constructor
  · intro a hr _
    suffices h : ∀ b : nom_agent, nom_reachable b → nominated_count b ≤ 1 from h a hr
    intro b hb
    induction hb with
    | refl => simp [nominated_count, nom_count, init_nom_agent]
    | tail hab hbc ih => exact step_nominated_le _ _ hbc ih
  · intro a b i h ha
    induction h with
    | refl => exact ha
    | tail hab hbc ih => exact step_selected_stable _ _ i hbc ih

/-- C1 witness: the theorem applied to a reachable controlling agent, and to a
connected agent with `selected_pair = 0` that transitions to failed. -/
theorem c1_nomination_witness :
    nominated_count { init_nom_agent with mode := agent_mode.controlling } ≤ 1 ∧
    ({ (⟨agent_mode.controlling, [⟨pair_state.succeeded, true⟩], some 0,
        juice_state.connected⟩ : nom_agent) with
        state := juice_state.failed } : nom_agent).selected_pair = some 0 := by
  constructor
  · exact c1_nomination_unique_selected_stable.1 _ (Relation.ReflTransGen.single
      (nom_step.set_role init_nom_agent agent_mode.controlling)) rfl
  · exact c1_nomination_unique_selected_stable.2 _ _ 0 (Relation.ReflTransGen.single
      (nom_step.change_state _ juice_state.failed)) rfl

/-! ## Bounded tables (claims C9 and C10) -/

/-- The counting view of the agent's tables: numbers of local candidates
(host and reflexive), remote candidates, candidate pairs and SERVER entries,
whether gathering has run, and a sticky flag recording that some pair addition
was dropped for want of room.  `iceMax` is `ICE_MAX_CANDIDATES_COUNT` from
`ice.h` (not in the snapshot), the capacity of each candidate list. -/
structure cap_agent where
  local_candidates : Nat
  remote_candidates : Nat
  host_candidates : Nat
  candidate_pairs_count : Nat
  server_entries : Nat
  gathered : Bool
  pair_dropped : Bool
deriving DecidableEq, Repr

/-- `entries_count`: one CHECK entry per candidate pair plus one entry per
STUN server record (src/agent.h lines 105-106). -/
def entries_count (a : cap_agent) : Nat := a.candidate_pairs_count + a.server_entries

/-- Table-filling operations: gathering (spec §6), learning a local reflexive
candidate, and adding a remote candidate. -/
inductive cap_op
  | gather (ifaces servers : Nat)
  | add_local
  | add_remote
deriving DecidableEq, Repr

/-- Modelled from the spec: the table-bookkeeping of `agent.c`
(`agent_gather_candidates`, `agent_add_candidate_pair` and friends), which is not
in the snapshot.  Spec §6: `gather_candidates` creates at most
`MAX_HOST_CANDIDATES_COUNT` host candidates and one SERVER entry per configured
STUN server, at most `MAX_STUN_SERVER_RECORDS_COUNT`; spec §5: the tables are
fixed-size and "overflow drops the incoming addition rather than growing"; a new
remote candidate is paired with each local candidate while the pair table
(capacity `MAX_CANDIDATE_PAIRS_COUNT`) has room, and `pair_dropped` records that
some pairing was dropped because the table was full. -/
def cap_step (n : Nat) (a : cap_agent) (op : cap_op) : cap_agent :=
  match op with
  | cap_op.gather ifaces servers =>
    if a.gathered then a
    else
      let hosts := min ifaces (MAX_HOST_CANDIDATES_COUNT n)
      { a with gathered := true,
               host_candidates := hosts,
               local_candidates := min (a.local_candidates + hosts) n,
               server_entries := min servers MAX_STUN_SERVER_RECORDS_COUNT }
  | cap_op.add_local =>
    { a with local_candidates := min (a.local_candidates + 1) n }
  | cap_op.add_remote =>
    if a.remote_candidates < n then
      let added := min a.local_candidates
        (MAX_CANDIDATE_PAIRS_COUNT n - a.candidate_pairs_count)
      { a with remote_candidates := a.remote_candidates + 1,
               candidate_pairs_count := a.candidate_pairs_count + added,
               pair_dropped := a.pair_dropped || decide (added < a.local_candidates) }
    else a

/-- A freshly created agent: empty tables. -/
def init_cap_agent : cap_agent := ⟨0, 0, 0, 0, 0, false, false⟩

/-- Run a sequence of table-filling operations from the fresh agent. -/
def run_cap_ops (n : Nat) (ops : List cap_op) : cap_agent :=
  ops.foldl (cap_step n) init_cap_agent

/-- The table bounds: host candidates, SERVER entries and candidate pairs never
exceed their compile-time capacities. -/
def cap_inv (n : Nat) (a : cap_agent) : Prop :=
  a.host_candidates ≤ MAX_HOST_CANDIDATES_COUNT n ∧
  a.server_entries ≤ MAX_STUN_SERVER_RECORDS_COUNT ∧
  a.candidate_pairs_count ≤ MAX_CANDIDATE_PAIRS_COUNT n

theorem cap_step_inv (n : Nat) (a : cap_agent) (op : cap_op)
    (h : cap_inv n a) : cap_inv n (cap_step n a op) := by
  obtain ⟨h1, h2, h3⟩ := h
  cases op with
  | gather ifaces servers =>
    by_cases hg : a.gathered <;> simp [cap_step, hg, cap_inv] <;> omega
  | add_local => exact ⟨h1, h2, h3⟩
  | add_remote =>
    by_cases hr : a.remote_candidates < n <;> simp [cap_step, hr, cap_inv]
    · refine ⟨h1, h2, ?_⟩
      simp only [MAX_CANDIDATE_PAIRS_COUNT] at *
      omega
    · exact ⟨h1, h2, h3⟩

theorem run_cap_inv (n : Nat) (ops : List cap_op) : cap_inv n (run_cap_ops n ops) := by
  suffices h : ∀ (l : List cap_op) (a : cap_agent), cap_inv n a →
      cap_inv n (l.foldl (cap_step n) a) by
    exact h ops init_cap_agent ⟨by simp [init_cap_agent], by simp [init_cap_agent],
      by simp [init_cap_agent]⟩
  intro l
  induction l with
  | nil => intro a ha; simpa using ha
  | cons op t ih => intro a ha; exact ih _ (cap_step_inv n a op ha)

/-- Repeatedly learning local candidates fills the local list up to its
capacity `n` and no further. -/
theorem locals_fill (n : Nat) : ∀ (k : Nat) (a : cap_agent), a.local_candidates ≤ n →
    (List.replicate k cap_op.add_local).foldl (cap_step n) a =
      { a with local_candidates := min (a.local_candidates + k) n } := by
  intro k
  induction k with
  | zero =>
    intro a ha
    obtain ⟨l, r, h, p, s, g, d⟩ := a
    simp only [List.replicate, List.foldl_nil]
    simp at ha
    simp [Nat.min_eq_left, ha]
  | succ m ih =>
    intro a ha
    obtain ⟨l, r, h, p, s, g, d⟩ := a
    rw [List.replicate_succ, List.foldl_cons]
    rw [ih _ (by simp [cap_step])]
    simp only [cap_step]
    simp only [cap_agent.mk.injEq, and_true, true_and]
    simp at ha ⊢
    omega

/-- C9: the tables are bounded by the compile-time constants and additions
beyond them are dropped: at all times at most
`ICE_MAX_CANDIDATES_COUNT - MAX_STUN_SERVER_RECORDS_COUNT - 2` host candidates,
at most `MAX_STUN_SERVER_RECORDS_COUNT = 2` SERVER entries, and
`entries_count ≤ MAX_CANDIDATE_PAIRS_COUNT + MAX_STUN_SERVER_RECORDS_COUNT`. -/
theorem c9_tables_bounded (n : Nat) (ops : List cap_op) :
    (run_cap_ops n ops).host_candidates ≤ MAX_HOST_CANDIDATES_COUNT n ∧
    (run_cap_ops n ops).server_entries ≤ MAX_STUN_SERVER_RECORDS_COUNT ∧
    entries_count (run_cap_ops n ops) ≤ MAX_STUN_ENTRIES_COUNT n := by
  obtain ⟨h1, h2, h3⟩ := run_cap_inv n ops
  refine ⟨h1, h2, ?_⟩
  simp only [entries_count, MAX_STUN_ENTRIES_COUNT]
  omega

/-- C10: the pair table never exceeds `2 · ICE_MAX_CANDIDATES_COUNT` pairs,
which is smaller than the `n · n` possible pairings (for `n > 2`), and for some
addition sequences the table fills up and a new remote candidate is not paired
with every local candidate. -/
theorem c10_pair_table_overflow (n : Nat) :
    (∀ ops, (run_cap_ops n ops).candidate_pairs_count ≤ MAX_CANDIDATE_PAIRS_COUNT n) ∧
    (2 < n → MAX_CANDIDATE_PAIRS_COUNT n < n * n) ∧
    (3 ≤ n → ∃ ops, (run_cap_ops n ops).pair_dropped = true) := by
  refine ⟨fun ops => (run_cap_inv n ops).2.2, ?_, ?_⟩
  · intro h
    simp only [MAX_CANDIDATE_PAIRS_COUNT]
    nlinarith
  · intro h3
    refine ⟨List.replicate n cap_op.add_local ++
      [cap_op.add_remote, cap_op.add_remote, cap_op.add_remote], ?_⟩
    rw [run_cap_ops, List.foldl_append,
      locals_fill n n init_cap_agent (by simp [init_cap_agent])]
    have h0 : 0 < n := by omega
    have h1 : 1 < n := by omega
    have h2 : 2 < n := by omega
    simp only [List.foldl_cons, List.foldl_nil, init_cap_agent]
    simp only [cap_step, MAX_CANDIDATE_PAIRS_COUNT]
    simp [h0, h1, h2]
    omega

/-- C10 witness: the theorem applied at capacity parameter 20 (the upstream
value of `ICE_MAX_CANDIDATES_COUNT`). -/
theorem c10_pair_table_overflow_witness :
    MAX_CANDIDATE_PAIRS_COUNT 20 < 20 * 20 ∧
    (∃ ops, (run_cap_ops 20 ops).pair_dropped = true) := by
  exact ⟨(c10_pair_table_overflow 20).2.1 (by decide),
    (c10_pair_table_overflow 20).2.2 (by decide)⟩

/-! ## STUN codec (claim C8) -/

/-- Big-endian 16-bit serialization of a value, as two bytes. -/
def b16 (v : Nat) : List Nat := [v / 256 % 256, v % 256]

/-- Big-endian 32-bit serialization of a value, as four bytes. -/
def b32 (v : Nat) : List Nat :=
  [v / 2 ^ 24 % 256, v / 2 ^ 16 % 256, v / 256 % 256, v % 256]

/-- Big-endian 64-bit serialization of a value, as eight bytes. -/
def b64 (v : Nat) : List Nat := b32 (v / 2 ^ 32) ++ b32 v

/-- Read a big-endian 16-bit value, returning it and the remaining bytes. -/
def read16 : List Nat → Option (Nat × List Nat)
  | a :: b :: rest => some (a * 256 + b, rest)
  | _ => none

/-- Read a big-endian 32-bit value, returning it and the remaining bytes. -/
def read32 : List Nat → Option (Nat × List Nat)
  | a :: b :: c :: d :: rest => some (((a * 256 + b) * 256 + c) * 256 + d, rest)
  | _ => none

/-- Read a big-endian 64-bit value, returning it and the remaining bytes. -/
def read64 : List Nat → Option (Nat × List Nat)
  | a :: b :: c :: d :: e :: f :: g :: h :: rest =>
    some ((((((((a * 256 + b) * 256 + c) * 256 + d) * 256 + e) * 256 + f) * 256 + g)
      * 256 + h), rest)
  | _ => none

/-- Read exactly `n` bytes, returning them and the remaining bytes. -/
def readN (n : Nat) (l : List Nat) : Option (List Nat × List Nat) :=
  if n ≤ l.length then some (l.take n, l.drop n) else none

theorem read16_b16 (v : Nat) (r : List Nat) (h : v < 2 ^ 16) :
    read16 (b16 v ++ r) = some (v, r) := by
  simp only [b16, List.cons_append, List.nil_append, read16]
  congr 2
  omega

theorem read32_b32 (v : Nat) (r : List Nat) (h : v < 2 ^ 32) :
    read32 (b32 v ++ r) = some (v, r) := by
  simp only [b32, List.cons_append, List.nil_append, read32]
  congr 2
  omega

theorem read64_b64 (v : Nat) (r : List Nat) (h : v < 2 ^ 64) :
    read64 (b64 v ++ r) = some (v, r) := by
  simp only [b64, b32, List.cons_append, List.nil_append, read64]
  congr 2
  omega

theorem readN_exact (n : Nat) (xs r : List Nat) (h : xs.length = n) :
    readN n (xs ++ r) = some (xs, r) := by
  simp only [readN, List.length_append]
  rw [if_pos (by omega)]
  rw [List.take_left' h, List.drop_left' h]

theorem b16_length (v : Nat) : (b16 v).length = 2 := rfl
theorem b32_length (v : Nat) : (b32 v).length = 4 := rfl
theorem b64_length (v : Nat) : (b64 v).length = 8 := rfl

/-- Number of padding bytes after a TLV value (spec §4.1: attributes are
4-byte aligned). -/
def attr_pad (len : Nat) : Nat := (4 - len % 4) % 4

/-- Modelled from the spec: the TLV encoding of one STUN attribute written by
`stun.c` (not in the snapshot): 16-bit type, 16-bit value length, value,
zero padding to a 4-byte boundary (spec §4.1). -/
def attr (t : Nat) (val : List Nat) : List Nat :=
  b16 t ++ b16 val.length ++ val ++ List.replicate (attr_pad val.length) 0

theorem attr_length (t : Nat) (val : List Nat) :
    (attr t val).length = 4 + val.length + attr_pad val.length := by
  simp [attr, b16]
  omega

theorem attr_length_mod4 (t : Nat) (val : List Nat) : (attr t val).length % 4 = 0 := by
  rw [attr_length]
  simp only [attr_pad]
  omega

/-- STUN attribute type codes (RFC 5389 / RFC 8445, spec §4.1). -/
def STUN_ATTR_USERNAME : Nat := 0x0006
def STUN_ATTR_MESSAGE_INTEGRITY : Nat := 0x0008
def STUN_ATTR_ERROR_CODE : Nat := 0x0009
def STUN_ATTR_XOR_MAPPED_ADDRESS : Nat := 0x0020
def STUN_ATTR_PRIORITY : Nat := 0x0024
def STUN_ATTR_USE_CANDIDATE : Nat := 0x0025
def STUN_ATTR_FINGERPRINT : Nat := 0x8028
def STUN_ATTR_ICE_CONTROLLED : Nat := 0x8029
def STUN_ATTR_ICE_CONTROLLING : Nat := 0x802A

/-- The STUN magic cookie 0x2112A442 (spec §4.1). -/
def MAGIC_COOKIE : Nat := 0x2112A442
/-- The FINGERPRINT XOR constant 0x5354554e (spec §4.1). -/
def FINGERPRINT_XOR : Nat := 0x5354554e

/-- The attribute set carried by a STUN message produced by the agent, per the
emission contract of spec §4.1: USERNAME, PRIORITY, ICE-CONTROLLED,
ICE-CONTROLLING, USE-CANDIDATE, XOR-MAPPED-ADDRESS (IPv4), ERROR-CODE.
MESSAGE-INTEGRITY and FINGERPRINT are computed, not stored. -/
structure stun_attrs where
  username : Option (List Nat)
  priority : Option Nat
  ice_controlled : Option Nat
  ice_controlling : Option Nat
  use_candidate : Bool
  mapped : Option (Nat × Nat)
  error_code : Option Nat
deriving DecidableEq, Repr

/-- No attributes. -/
def empty_attrs : stun_attrs := ⟨none, none, none, none, false, none, none⟩

/-- Modelled from the spec: the XOR-MAPPED-ADDRESS value for IPv4 (spec §4.1:
decoded against the magic cookie): family 0x01, port XORed with the cookie top
bits, address XORed with the cookie. -/
def xmapped_value (port ip : Nat) : List Nat :=
  [0, 1] ++ b16 (port ^^^ 0x2112) ++ b32 (ip ^^^ MAGIC_COOKIE)

/-- Modelled from the spec: decoding of one attribute into the attribute set
(`stun.c` is not in the snapshot; spec §4.1 parsing contract).  Unknown
attribute types are ignored. -/
def apply_attr (acc : stun_attrs) (t : Nat) (val : List Nat) : Option stun_attrs :=
  if t = STUN_ATTR_USERNAME then some { acc with username := some val }
  else if t = STUN_ATTR_PRIORITY then
    match read32 val with
    | some (p, []) => some { acc with priority := some p }
    | _ => none
  else if t = STUN_ATTR_ICE_CONTROLLED then
    match read64 val with
    | some (v, []) => some { acc with ice_controlled := some v }
    | _ => none
  else if t = STUN_ATTR_ICE_CONTROLLING then
    match read64 val with
    | some (v, []) => some { acc with ice_controlling := some v }
    | _ => none
  else if t = STUN_ATTR_USE_CANDIDATE then
    match val with
    | [] => some { acc with use_candidate := true }
    | _ => none
  else if t = STUN_ATTR_XOR_MAPPED_ADDRESS then
    match val with
    | 0 :: 1 :: rest =>
      (match read16 rest with
      | some (xp, rest2) =>
        match read32 rest2 with
        | some (xip, []) =>
          some { acc with mapped := some (xp ^^^ 0x2112, xip ^^^ MAGIC_COOKIE) }
        | _ => none
      | _ => none)
    | _ => none
  else if t = STUN_ATTR_ERROR_CODE then
    match val with
    | [_, _, c, num] => some { acc with error_code := some (c * 100 + num) }
    | _ => none
  else some acc

/-- Modelled from the spec: the attribute TLV loop of the decoder.  The fuel
argument bounds the number of attributes; each attribute consumes at least
4 bytes. -/
def parse_attrs : Nat → List Nat → stun_attrs → Option stun_attrs
  | _, [], acc => some acc
  | 0, _ :: _, _ => none
  | fuel + 1, c1 :: l, acc =>
    (read16 (c1 :: l)).bind fun tp =>
    (read16 tp.2).bind fun lp =>
    (readN lp.1 lp.2).bind fun vp =>
    (readN (attr_pad lp.1) vp.2).bind fun pp =>
    (apply_attr acc tp.1 vp.1).bind fun acc2 =>
    parse_attrs fuel pp.2 acc2

theorem parse_attrs_nil (fuel : Nat) (acc : stun_attrs) :
    parse_attrs fuel [] acc = some acc := by
  cases fuel <;> rfl

theorem parse_attrs_attr (f : Nat) (t : Nat) (v rest : List Nat) (acc : stun_attrs)
    (ht : t < 2 ^ 16) (hv : v.length < 2 ^ 16) :
    parse_attrs (f + 1) (attr t v ++ rest) acc =
      (apply_attr acc t v).bind fun acc2 => parse_attrs f rest acc2 := by
  have hb : attr t v ++ rest =
      (t / 256 % 256) :: (t % 256) ::
        (b16 v.length ++ (v ++ (List.replicate (attr_pad v.length) 0 ++ rest))) := by
    simp [attr, b16]
  rw [hb]
  show ((read16 ((t / 256 % 256) :: (t % 256) ::
      (b16 v.length ++ (v ++ (List.replicate (attr_pad v.length) 0 ++ rest))))).bind fun tp =>
    (read16 tp.2).bind fun lp =>
    (readN lp.1 lp.2).bind fun vp =>
    (readN (attr_pad lp.1) vp.2).bind fun pp =>
    (apply_attr acc tp.1 vp.1).bind fun acc2 =>
    parse_attrs f pp.2 acc2) = _
  have h1 : read16 ((t / 256 % 256) :: (t % 256) ::
      (b16 v.length ++ (v ++ (List.replicate (attr_pad v.length) 0 ++ rest)))) =
      some (t, b16 v.length ++ (v ++ (List.replicate (attr_pad v.length) 0 ++ rest))) := by
    simp only [read16]
    congr 2
    omega
  rw [h1, Option.some_bind]
  rw [read16_b16 v.length _ hv, Option.some_bind]
  rw [readN_exact v.length v _ rfl, Option.some_bind]
  rw [readN_exact (attr_pad v.length) _ _ (List.length_replicate _ _), Option.some_bind]

/-- The item list contributed by an optional attribute. -/
def opt_item {α : Type} (o : Option α) (f : α → Nat × List Nat) : List (Nat × List Nat) :=
  match o with
  | none => []
  | some x => [f x]

/-- The (type, value) items of a message's attributes, in the emission order
required by spec §4.1: USERNAME, PRIORITY, ICE-CONTROLLED, ICE-CONTROLLING,
USE-CANDIDATE, XOR-MAPPED-ADDRESS, ERROR-CODE. -/
def attr_items (m : stun_attrs) : List (Nat × List Nat) :=
  opt_item m.username (fun u => (STUN_ATTR_USERNAME, u)) ++
  opt_item m.priority (fun p => (STUN_ATTR_PRIORITY, b32 p)) ++
  opt_item m.ice_controlled (fun v => (STUN_ATTR_ICE_CONTROLLED, b64 v)) ++
  opt_item m.ice_controlling (fun v => (STUN_ATTR_ICE_CONTROLLING, b64 v)) ++
  (if m.use_candidate then [(STUN_ATTR_USE_CANDIDATE, ([] : List Nat))] else []) ++
  opt_item m.mapped (fun pr => (STUN_ATTR_XOR_MAPPED_ADDRESS, xmapped_value pr.1 pr.2)) ++
  opt_item m.error_code (fun c => (STUN_ATTR_ERROR_CODE, [0, 0, c / 100, c % 100]))

/-- Concatenated TLV encodings of a list of attribute items. -/
def enc_items : List (Nat × List Nat) → List Nat
  | [] => []
  | p :: t => attr p.1 p.2 ++ enc_items t

/-- The encoded attribute bytes of a message, before MESSAGE-INTEGRITY and
FINGERPRINT. -/
def encode_attrs (m : stun_attrs) : List Nat := enc_items (attr_items m)

/-- Fold the attribute items into the attribute set, as the decoder does. -/
def apply_items (acc : stun_attrs) : List (Nat × List Nat) → Option stun_attrs
  | [] => some acc
  | p :: t =>
    match apply_attr acc p.1 p.2 with
    | none => none
    | some acc2 => apply_items acc2 t

theorem enc_items_mod4 (items : List (Nat × List Nat)) :
    (enc_items items).length % 4 = 0 := by
  induction items with
  | nil => rfl
  | cons p t ih =>
    simp only [enc_items, List.length_append]
    have := attr_length_mod4 p.1 p.2
    omega

theorem parse_enc_items :
    ∀ (items : List (Nat × List Nat)) (fuel : Nat) (acc : stun_attrs),
    items.length ≤ fuel →
    (∀ p ∈ items, p.1 < 2 ^ 16 ∧ p.2.length < 2 ^ 16) →
    parse_attrs fuel (enc_items items) acc = apply_items acc items := by
  intro items
  induction items with
  | nil =>
    intro fuel acc _ _
    exact parse_attrs_nil fuel acc
  | cons p t ih =>
    intro fuel acc hf hb
    obtain ⟨f, rfl⟩ : ∃ f, fuel = f + 1 := by
      cases fuel with
      | zero => exact absurd hf (by simp)
      | succ f => exact ⟨f, rfl⟩
    have hp := hb p (by simp)
    show parse_attrs (f + 1) (attr p.1 p.2 ++ enc_items t) acc = _
    rw [parse_attrs_attr f p.1 p.2 _ acc hp.1 hp.2]
    simp only [apply_items]
    cases happ : apply_attr acc p.1 p.2 with
    | none => rfl
    | some acc2 =>
      simp only [Option.some_bind]
      exact ih f acc2 (by simp only [List.length_cons] at hf; omega) (fun q hq => hb q (by simp [hq]))

/-- Effect of an optional USERNAME on the accumulated attribute set. -/
def upd_username (acc : stun_attrs) (o : Option (List Nat)) : stun_attrs :=
  match o with
  | none => acc
  | some u => { acc with username := some u }

/-- Effect of an optional PRIORITY on the accumulated attribute set. -/
def upd_priority (acc : stun_attrs) (o : Option Nat) : stun_attrs :=
  match o with
  | none => acc
  | some p => { acc with priority := some p }

/-- Effect of an optional ICE-CONTROLLED on the accumulated attribute set. -/
def upd_controlled (acc : stun_attrs) (o : Option Nat) : stun_attrs :=
  match o with
  | none => acc
  | some v => { acc with ice_controlled := some v }

/-- Effect of an optional ICE-CONTROLLING on the accumulated attribute set. -/
def upd_controlling (acc : stun_attrs) (o : Option Nat) : stun_attrs :=
  match o with
  | none => acc
  | some v => { acc with ice_controlling := some v }

/-- Effect of USE-CANDIDATE on the accumulated attribute set. -/
def upd_use_candidate (acc : stun_attrs) (b : Bool) : stun_attrs :=
  if b then { acc with use_candidate := true } else acc

/-- Effect of an optional XOR-MAPPED-ADDRESS on the accumulated attribute set. -/
def upd_mapped (acc : stun_attrs) (o : Option (Nat × Nat)) : stun_attrs :=
  match o with
  | none => acc
  | some pr => { acc with mapped := some pr }

/-- Effect of an optional ERROR-CODE on the accumulated attribute set. -/
def upd_error_code (acc : stun_attrs) (o : Option Nat) : stun_attrs :=
  match o with
  | none => acc
  | some c => { acc with error_code := some c }

theorem apply_items_append (l1 l2 : List (Nat × List Nat)) :
    ∀ acc, apply_items acc (l1 ++ l2) =
      (apply_items acc l1).bind (fun a2 => apply_items a2 l2) := by
  induction l1 with
  | nil => intro acc; simp [apply_items]
  | cons p t ih =>
    intro acc
    simp only [List.cons_append, apply_items]
    cases apply_attr acc p.1 p.2 with
    | none => rfl
    | some acc2 => simp only [Option.some_bind]; exact ih acc2

theorem read32_b32_nil (v : Nat) (h : v < 2 ^ 32) : read32 (b32 v) = some (v, []) := by
  have := read32_b32 v [] h
  simpa using this

theorem read64_b64_nil (v : Nat) (h : v < 2 ^ 64) : read64 (b64 v) = some (v, []) := by
  have := read64_b64 v [] h
  simpa using this

theorem seg_username (acc : stun_attrs) (o : Option (List Nat)) :
    apply_items acc (opt_item o (fun u => (STUN_ATTR_USERNAME, u))) =
      some (upd_username acc o) := by
  cases o <;> simp [opt_item, apply_items, apply_attr, upd_username, STUN_ATTR_USERNAME]

theorem seg_priority (acc : stun_attrs) (o : Option Nat)
    (hb : ∀ x, o = some x → x < 2 ^ 32) :
    apply_items acc (opt_item o (fun p => (STUN_ATTR_PRIORITY, b32 p))) =
      some (upd_priority acc o) := by
  cases o with
  | none => simp [opt_item, apply_items, upd_priority]
  | some p =>
    simp only [opt_item, apply_items, apply_attr, upd_priority,
      STUN_ATTR_PRIORITY, STUN_ATTR_USERNAME]
    rw [read32_b32_nil p (hb p rfl)]
    simp

theorem seg_controlled (acc : stun_attrs) (o : Option Nat)
    (hb : ∀ x, o = some x → x < 2 ^ 64) :
    apply_items acc (opt_item o (fun v => (STUN_ATTR_ICE_CONTROLLED, b64 v))) =
      some (upd_controlled acc o) := by
  cases o with
  | none => simp [opt_item, apply_items, upd_controlled]
  | some v =>
    simp only [opt_item, apply_items, apply_attr, upd_controlled,
      STUN_ATTR_ICE_CONTROLLED, STUN_ATTR_USERNAME, STUN_ATTR_PRIORITY]
    rw [read64_b64_nil v (hb v rfl)]
    simp

theorem seg_controlling (acc : stun_attrs) (o : Option Nat)
    (hb : ∀ x, o = some x → x < 2 ^ 64) :
    apply_items acc (opt_item o (fun v => (STUN_ATTR_ICE_CONTROLLING, b64 v))) =
      some (upd_controlling acc o) := by
  cases o with
  | none => simp [opt_item, apply_items, upd_controlling]
  | some v =>
    simp only [opt_item, apply_items, apply_attr, upd_controlling,
      STUN_ATTR_ICE_CONTROLLING, STUN_ATTR_USERNAME, STUN_ATTR_PRIORITY,
      STUN_ATTR_ICE_CONTROLLED]
    rw [read64_b64_nil v (hb v rfl)]
    simp

theorem seg_use_candidate (acc : stun_attrs) (b : Bool) :
    apply_items acc
      (if b then [(STUN_ATTR_USE_CANDIDATE, ([] : List Nat))] else []) =
      some (upd_use_candidate acc b) := by
  cases b <;>
    simp [apply_items, apply_attr, upd_use_candidate, STUN_ATTR_USE_CANDIDATE,
      STUN_ATTR_USERNAME, STUN_ATTR_PRIORITY, STUN_ATTR_ICE_CONTROLLED,
      STUN_ATTR_ICE_CONTROLLING]

theorem seg_mapped (acc : stun_attrs) (o : Option (Nat × Nat))
    (hb : ∀ pr, o = some pr → pr.1 < 2 ^ 16 ∧ pr.2 < 2 ^ 32) :
    apply_items acc
      (opt_item o (fun pr => (STUN_ATTR_XOR_MAPPED_ADDRESS, xmapped_value pr.1 pr.2))) =
      some (upd_mapped acc o) := by
  cases o with
  | none => simp [opt_item, apply_items, upd_mapped]
  | some pr =>
    obtain ⟨hport, hip⟩ := hb pr rfl
    have hx : pr.1 ^^^ 0x2112 < 2 ^ 16 :=
      Nat.xor_lt_two_pow hport (by norm_num)
    have hy : pr.2 ^^^ MAGIC_COOKIE < 2 ^ 32 :=
      Nat.xor_lt_two_pow hip (by norm_num [MAGIC_COOKIE])
    simp [opt_item, apply_items, apply_attr, upd_mapped,
      STUN_ATTR_XOR_MAPPED_ADDRESS, STUN_ATTR_USERNAME, STUN_ATTR_PRIORITY,
      STUN_ATTR_ICE_CONTROLLED, STUN_ATTR_ICE_CONTROLLING, STUN_ATTR_USE_CANDIDATE,
      xmapped_value, read16_b16 _ _ hx, read32_b32_nil _ hy, Nat.xor_cancel_right]

theorem seg_error_code (acc : stun_attrs) (o : Option Nat) :
    apply_items acc
      (opt_item o (fun c => (STUN_ATTR_ERROR_CODE, [0, 0, c / 100, c % 100]))) =
      some (upd_error_code acc o) := by
  cases o with
  | none => simp [opt_item, apply_items, upd_error_code]
  | some c =>
    simp only [opt_item, apply_items, apply_attr, upd_error_code,
      STUN_ATTR_ERROR_CODE, STUN_ATTR_USERNAME, STUN_ATTR_PRIORITY,
      STUN_ATTR_ICE_CONTROLLED, STUN_ATTR_ICE_CONTROLLING, STUN_ATTR_USE_CANDIDATE,
      STUN_ATTR_XOR_MAPPED_ADDRESS]
    have hc : c / 100 * 100 + c % 100 = c := by omega
    simp [hc]

theorem apply_attr_items (m : stun_attrs)
    (hpr : ∀ x, m.priority = some x → x < 2 ^ 32)
    (hcd : ∀ x, m.ice_controlled = some x → x < 2 ^ 64)
    (hcg : ∀ x, m.ice_controlling = some x → x < 2 ^ 64)
    (hmp : ∀ pr, m.mapped = some pr → pr.1 < 2 ^ 16 ∧ pr.2 < 2 ^ 32) :
    apply_items empty_attrs (attr_items m) = some m := by
  simp only [attr_items]
  rw [apply_items_append, apply_items_append, apply_items_append, apply_items_append,
    apply_items_append, apply_items_append]
  rw [seg_username, Option.some_bind]
  rw [seg_priority _ _ hpr, Option.some_bind]
  rw [seg_controlled _ _ hcd, Option.some_bind]
  rw [seg_controlling _ _ hcg, Option.some_bind]
  rw [seg_use_candidate, Option.some_bind]
  rw [seg_mapped _ _ hmp, Option.some_bind]
  rw [seg_error_code]
  obtain ⟨u, pr2, cd, cg, uc, mp, ec⟩ := m
  cases u <;> cases pr2 <;> cases cd <;> cases cg <;> cases uc <;> cases mp <;> cases ec <;>
    rfl

/-- STUN message classes (spec §4.1): request, indication, success response,
error response. -/
inductive stun_class
  | request
  | indication
  | success_resp
  | error_resp
deriving DecidableEq, Repr

/-- The two class bits C1 C0 of the STUN message type. -/
def class_bits : stun_class → Nat
  | stun_class.request => 0
  | stun_class.indication => 1
  | stun_class.success_resp => 2
  | stun_class.error_resp => 3

/-- The 14-bit STUN message type: method bits M11-M0 interleaved with class
bits C1 (bit 8) and C0 (bit 4), per RFC 5389 §6. -/
def encode_type (c : stun_class) (method : Nat) : Nat :=
  method / 128 % 32 * 512 + class_bits c / 2 * 256 + method / 16 % 8 * 32 +
    class_bits c % 2 * 16 + method % 16

/-- The class recovered from a STUN message type. -/
def decode_class (t : Nat) : stun_class :=
  match t / 256 % 2 * 2 + t / 16 % 2 with
  | 0 => stun_class.request
  | 1 => stun_class.indication
  | 2 => stun_class.success_resp
  | _ => stun_class.error_resp

/-- The method recovered from a STUN message type. -/
def decode_method (t : Nat) : Nat := t / 512 * 128 + t / 32 % 8 * 16 + t % 16

theorem encode_type_lt (c : stun_class) (m : Nat) :
    encode_type c m < 2 ^ 14 := by
  cases c <;> simp [encode_type, class_bits] <;> omega

theorem decode_class_encode (c : stun_class) (m : Nat) :
    decode_class (encode_type c m) = c := by
  cases c with
  | request =>
    have h : encode_type stun_class.request m / 256 % 2 * 2 +
        encode_type stun_class.request m / 16 % 2 = 0 := by
      simp only [encode_type, class_bits]
      omega
    simp only [decode_class, h]
  | indication =>
    have h : encode_type stun_class.indication m / 256 % 2 * 2 +
        encode_type stun_class.indication m / 16 % 2 = 1 := by
      simp only [encode_type, class_bits]
      omega
    simp only [decode_class, h]
  | success_resp =>
    have h : encode_type stun_class.success_resp m / 256 % 2 * 2 +
        encode_type stun_class.success_resp m / 16 % 2 = 2 := by
      simp only [encode_type, class_bits]
      omega
    simp only [decode_class, h]
  | error_resp =>
    have h : encode_type stun_class.error_resp m / 256 % 2 * 2 +
        encode_type stun_class.error_resp m / 16 % 2 = 3 := by
      simp only [encode_type, class_bits]
      omega
    simp only [decode_class, h]

theorem decode_method_encode (c : stun_class) (m : Nat) (hm : m < 4096) :
    decode_method (encode_type c m) = m := by
  cases c <;> simp only [decode_method, encode_type, class_bits] <;> omega

/-- A STUN message: class, method, 12-byte transaction id, and attribute set
(spec §4.1). -/
structure stun_message where
  msg_class : stun_class
  msg_method : Nat
  transaction_id : List Nat
  attrs : stun_attrs
deriving DecidableEq, Repr

/-- The 20-byte STUN header: type, length, magic cookie, transaction id. -/
def stun_header (ty len : Nat) (txid : List Nat) : List Nat :=
  b16 ty ++ b16 len ++ b32 MAGIC_COOKIE ++ txid

/-- Modelled from the spec: `stun_write` of `stun.c` (not in the snapshot).
Spec §4.1 emission contract: header, then the attributes in order, then
MESSAGE-INTEGRITY computed by `hmac` over the message so far with the length
field adjusted to include the MESSAGE-INTEGRITY attribute, then FINGERPRINT as
the CRC of everything preceding it (length adjusted to include it) XORed with
0x5354554e.  `hmac` and `crc` are the collaborator primitives of spec §6. -/
def stun_write (hmac : List Nat → List Nat → List Nat) (crc : List Nat → Nat)
    (key : List Nat) (m : stun_message) : List Nat :=
  stun_header (encode_type m.msg_class m.msg_method)
      ((encode_attrs m.attrs).length + 32) m.transaction_id ++
    (encode_attrs m.attrs ++
      attr STUN_ATTR_MESSAGE_INTEGRITY
        (hmac key (stun_header (encode_type m.msg_class m.msg_method)
          ((encode_attrs m.attrs).length + 24) m.transaction_id ++ encode_attrs m.attrs))) ++
    attr STUN_ATTR_FINGERPRINT
      (b32 (crc (stun_header (encode_type m.msg_class m.msg_method)
          ((encode_attrs m.attrs).length + 32) m.transaction_id ++
        (encode_attrs m.attrs ++
          attr STUN_ATTR_MESSAGE_INTEGRITY
            (hmac key (stun_header (encode_type m.msg_class m.msg_method)
              ((encode_attrs m.attrs).length + 24) m.transaction_id ++
                encode_attrs m.attrs)))) ^^^ FINGERPRINT_XOR))

/-- Modelled from the spec: `stun_read` of `stun.c` (not in the snapshot).
Spec §4.1 parsing contract: validate the header (first two bits zero, magic
cookie, length consistent with the buffer); FINGERPRINT must be the last
attribute and is verified against the recomputed CRC; MESSAGE-INTEGRITY is
verified against the key over the message truncated to the byte before
MESSAGE-INTEGRITY with the length field rewritten; the remaining attributes
are decoded by the TLV loop.  Returns `none` when any validation fails, so a
`some` result means both FINGERPRINT and MESSAGE-INTEGRITY verified. -/
def stun_read (hmac : List Nat → List Nat → List Nat) (crc : List Nat → Nat)
    (key : List Nat) (buf : List Nat) : Option stun_message :=
  (read16 buf).bind fun tyr =>
  (read16 tyr.2).bind fun lenr =>
  (read32 lenr.2).bind fun ckr =>
  (readN 12 ckr.2).bind fun txr =>
  if 2 ^ 14 ≤ tyr.1 then none
  else if ckr.1 = MAGIC_COOKIE then
    (if txr.2.length = lenr.1 then
      (if lenr.1 < 32 then none
       else
        (read16 (txr.2.drop (lenr.1 - 8))).bind fun ftr =>
        (read16 ftr.2).bind fun flr =>
        (read32 flr.2).bind fun fvr =>
        if ftr.1 = STUN_ATTR_FINGERPRINT then
          (if flr.1 = 4 then
            (if fvr.2 = ([] : List Nat) then
              (if fvr.1 = (crc (stun_header tyr.1 lenr.1 txr.1 ++
                    txr.2.take (lenr.1 - 8)) ^^^ FINGERPRINT_XOR) % 2 ^ 32 then
                (if (txr.2.take (lenr.1 - 8)).length < 24 then none
                 else
                  (read16 ((txr.2.take (lenr.1 - 8)).drop
                      ((txr.2.take (lenr.1 - 8)).length - 24))).bind fun mtr =>
                  (read16 mtr.2).bind fun mlr =>
                  if mtr.1 = STUN_ATTR_MESSAGE_INTEGRITY then
                    (if mlr.1 = 20 then
                      (if mlr.2 = hmac key (stun_header tyr.1 (lenr.1 - 8) txr.1 ++
                          (txr.2.take (lenr.1 - 8)).take
                            ((txr.2.take (lenr.1 - 8)).length - 24)) then
                        (parse_attrs
                            (((txr.2.take (lenr.1 - 8)).take
                              ((txr.2.take (lenr.1 - 8)).length - 24)).length + 1)
                            ((txr.2.take (lenr.1 - 8)).take
                              ((txr.2.take (lenr.1 - 8)).length - 24))
                            empty_attrs).bind fun ats =>
                        some ⟨decode_class tyr.1, decode_method tyr.1, txr.1, ats⟩
                       else none)
                     else none)
                  else none)
               else none)
             else none)
           else none)
        else none)
     else none)
  else none

theorem stun_header_length (ty len : Nat) (txid : List Nat) :
    (stun_header ty len txid).length = 8 + txid.length := by
  simp [stun_header, b16, b32]
  omega

theorem attr_mi_length (mi : List Nat) (h : mi.length = 20) :
    (attr STUN_ATTR_MESSAGE_INTEGRITY mi).length = 24 := by
  rw [attr_length, h]
  rfl

theorem attr_fp_length (v : Nat) :
    (attr STUN_ATTR_FINGERPRINT (b32 v)).length = 8 := by
  rw [attr_length, b32_length]
  rfl

theorem stun_write_length (hmac : List Nat → List Nat → List Nat) (crc : List Nat → Nat)
    (key : List Nat) (m : stun_message) (hhm : ∀ k d, (hmac k d).length = 20)
    (htx : m.transaction_id.length = 12) :
    (stun_write hmac crc key m).length = 52 + (encode_attrs m.attrs).length := by
  simp only [stun_write, List.length_append, stun_header_length, attr_mi_length _ (hhm _ _),
    attr_fp_length, htx]
  omega

theorem stun_write_mod4 (hmac : List Nat → List Nat → List Nat) (crc : List Nat → Nat)
    (key : List Nat) (m : stun_message) (hhm : ∀ k d, (hmac k d).length = 20)
    (htx : m.transaction_id.length = 12) :
    (stun_write hmac crc key m).length % 4 = 0 := by
  rw [stun_write_length hmac crc key m hhm htx]
  have h4 := enc_items_mod4 (attr_items m.attrs)
  simp only [encode_attrs]
  omega

theorem read32_b32_mod (v : Nat) (r : List Nat) :
    read32 (b32 v ++ r) = some (v % 2 ^ 32, r) := by
  simp only [b32, List.cons_append, List.nil_append, read32]
  congr 2
  omega

theorem opt_item_length_le {α : Type} (o : Option α) (f : α → Nat × List Nat) :
    (opt_item o f).length ≤ 1 := by
  cases o <;> simp [opt_item]

theorem attr_items_length_le (m : stun_attrs) : (attr_items m).length ≤ 7 := by
  simp only [attr_items, List.length_append]
  have h1 := opt_item_length_le m.username (fun u => (STUN_ATTR_USERNAME, u))
  have h2 := opt_item_length_le m.priority (fun p => (STUN_ATTR_PRIORITY, b32 p))
  have h3 := opt_item_length_le m.ice_controlled (fun v => (STUN_ATTR_ICE_CONTROLLED, b64 v))
  have h4 := opt_item_length_le m.ice_controlling (fun v => (STUN_ATTR_ICE_CONTROLLING, b64 v))
  have h6 := opt_item_length_le m.mapped
    (fun pr => (STUN_ATTR_XOR_MAPPED_ADDRESS, xmapped_value pr.1 pr.2))
  have h7 := opt_item_length_le m.error_code
    (fun c => (STUN_ATTR_ERROR_CODE, [0, 0, c / 100, c % 100]))
  have h5 : (if m.use_candidate then [(STUN_ATTR_USE_CANDIDATE, ([] : List Nat))]
      else []).length ≤ 1 := by
    cases m.use_candidate <;> simp
  omega

theorem attr_items_bounds (m : stun_attrs)
    (husr : ∀ u, m.username = some u → u.length < 2 ^ 16) :
    ∀ p ∈ attr_items m, p.1 < 2 ^ 16 ∧ p.2.length < 2 ^ 16 := by
  intro p hp
  simp only [attr_items, List.mem_append] at hp
  rcases hp with ((((((h | h) | h) | h) | h) | h) | h)
  · cases hu : m.username with
    | none => rw [hu] at h; simp [opt_item] at h
    | some u =>
      rw [hu] at h
      simp [opt_item] at h
      subst h
      exact ⟨by norm_num [STUN_ATTR_USERNAME], husr u hu⟩
  · cases hu : m.priority with
    | none => rw [hu] at h; simp [opt_item] at h
    | some x =>
      rw [hu] at h
      simp [opt_item] at h
      subst h
      exact ⟨by norm_num [STUN_ATTR_PRIORITY], by simp [b32]⟩
  · cases hu : m.ice_controlled with
    | none => rw [hu] at h; simp [opt_item] at h
    | some x =>
      rw [hu] at h
      simp [opt_item] at h
      subst h
      exact ⟨by norm_num [STUN_ATTR_ICE_CONTROLLED], by simp [b64, b32]⟩
  · cases hu : m.ice_controlling with
    | none => rw [hu] at h; simp [opt_item] at h
    | some x =>
      rw [hu] at h
      simp [opt_item] at h
      subst h
      exact ⟨by norm_num [STUN_ATTR_ICE_CONTROLLING], by simp [b64, b32]⟩
  · cases hu : m.use_candidate with
    | false => rw [hu] at h; simp at h
    | true =>
      rw [hu] at h
      simp at h
      subst h
      exact ⟨by norm_num [STUN_ATTR_USE_CANDIDATE], by simp⟩
  · cases hu : m.mapped with
    | none => rw [hu] at h; simp [opt_item] at h
    | some pr =>
      rw [hu] at h
      simp [opt_item] at h
      subst h
      refine ⟨by norm_num [STUN_ATTR_XOR_MAPPED_ADDRESS], ?_⟩
      simp [xmapped_value, b16, b32]
  · cases hu : m.error_code with
    | none => rw [hu] at h; simp [opt_item] at h
    | some c =>
      rw [hu] at h
      simp [opt_item] at h
      subst h
      exact ⟨by norm_num [STUN_ATTR_ERROR_CODE], by simp⟩

theorem enc_items_length_ge (items : List (Nat × List Nat)) :
    4 * items.length ≤ (enc_items items).length := by
  induction items with
  | nil => simp [enc_items]
  | cons p t ih =>
    simp only [enc_items, List.length_append, List.length_cons]
    have := attr_length p.1 p.2
    omega

theorem parse_enc_items_self (items : List (Nat × List Nat)) (acc : stun_attrs)
    (hb : ∀ p ∈ items, p.1 < 2 ^ 16 ∧ p.2.length < 2 ^ 16) :
    parse_attrs ((enc_items items).length + 1) (enc_items items) acc =
      apply_items acc items := by
  have := enc_items_length_ge items
  exact parse_enc_items items _ acc (by omega) hb

/-- Decoding an encoded message recovers the class, method, transaction id and
attribute set, with the fingerprint and integrity checks passing. -/
theorem stun_read_write
    (hmac : List Nat → List Nat → List Nat) (crc : List Nat → Nat)
    (key : List Nat) (m : stun_message)
    (hhm : ∀ k d, (hmac k d).length = 20)
    (htx : m.transaction_id.length = 12)
    (hme : m.msg_method < 4096)
    (hlen : (encode_attrs m.attrs).length + 32 < 2 ^ 16)
    (husr : ∀ u, m.attrs.username = some u → u.length < 2 ^ 16)
    (hpr : ∀ x, m.attrs.priority = some x → x < 2 ^ 32)
    (hcd : ∀ x, m.attrs.ice_controlled = some x → x < 2 ^ 64)
    (hcg : ∀ x, m.attrs.ice_controlling = some x → x < 2 ^ 64)
    (hmp : ∀ pr, m.attrs.mapped = some pr → pr.1 < 2 ^ 16 ∧ pr.2 < 2 ^ 32) :
    stun_read hmac crc key (stun_write hmac crc key m) = some m := by
  simp only [stun_write]
  set A := encode_attrs m.attrs with hA
  set TY := encode_type m.msg_class m.msg_method with hTY
  set MI := hmac key (stun_header TY (A.length + 24) m.transaction_id ++ A) with hMI
  set FPV := crc (stun_header TY (A.length + 32) m.transaction_id ++
    (A ++ attr STUN_ATTR_MESSAGE_INTEGRITY MI)) ^^^ FINGERPRINT_XOR with hFPV
  have hmiL : MI.length = 20 := hhm _ _
  have hAL : A.length + 32 < 2 ^ 16 := hlen
  have hty14 : TY < 2 ^ 14 := by
    rw [hTY]
    exact encode_type_lt _ _
  have hattrmiL : (attr STUN_ATTR_MESSAGE_INTEGRITY MI).length = 24 := attr_mi_length MI hmiL
  have hcoreL : (A ++ attr STUN_ATTR_MESSAGE_INTEGRITY MI).length = A.length + 24 := by
    simp [List.length_append, hattrmiL]
  have hbuf : stun_header TY (A.length + 32) m.transaction_id ++
      (A ++ attr STUN_ATTR_MESSAGE_INTEGRITY MI) ++ attr STUN_ATTR_FINGERPRINT (b32 FPV) =
      b16 TY ++ (b16 (A.length + 32) ++ (b32 MAGIC_COOKIE ++ (m.transaction_id ++
        ((A ++ attr STUN_ATTR_MESSAGE_INTEGRITY MI) ++
          attr STUN_ATTR_FINGERPRINT (b32 FPV))))) := by
    simp [stun_header, List.append_assoc]
  rw [hbuf]
  simp only [stun_read]
  rw [read16_b16 TY _ (by omega)]
  simp only [Option.some_bind]
  rw [read16_b16 _ _ hAL]
  simp only [Option.some_bind]
  rw [read32_b32 MAGIC_COOKIE _ (by norm_num [MAGIC_COOKIE])]
  simp only [Option.some_bind]
  rw [readN_exact 12 m.transaction_id _ htx]
  simp only [Option.some_bind]
  rw [if_neg (by omega : ¬ 2 ^ 14 ≤ TY)]
  rw [if_true]
  have hbody : ((A ++ attr STUN_ATTR_MESSAGE_INTEGRITY MI) ++
      attr STUN_ATTR_FINGERPRINT (b32 FPV)).length = A.length + 32 := by
    simp [List.length_append, hattrmiL, attr_fp_length]
  rw [if_pos hbody]
  rw [if_neg (by omega : ¬ A.length + 32 < 32)]
  have hL8 : A.length + 32 - 8 = A.length + 24 := by omega
  rw [hL8]
  rw [List.drop_left' (by rw [hcoreL])]
  rw [List.take_left' (by rw [hcoreL])]
  have hfpshape : attr STUN_ATTR_FINGERPRINT (b32 FPV) =
      b16 STUN_ATTR_FINGERPRINT ++ (b16 4 ++ (b32 FPV ++ ([] : List Nat))) := by
    simp [attr, attr_pad, b32_length]
  rw [hfpshape]
  rw [read16_b16 _ _ (by norm_num [STUN_ATTR_FINGERPRINT])]
  simp only [Option.some_bind]
  rw [read16_b16 4 _ (by norm_num)]
  simp only [Option.some_bind]
  rw [read32_b32_mod FPV []]
  simp only [Option.some_bind]
  simp only [if_true]
  rw [if_neg (show ¬ (A ++ attr STUN_ATTR_MESSAGE_INTEGRITY MI).length < 24 by
    rw [hcoreL]; omega)]
  have hsub : (A ++ attr STUN_ATTR_MESSAGE_INTEGRITY MI).length - 24 = A.length := by
    rw [hcoreL]
    omega
  rw [hsub]
  rw [List.drop_left, List.take_left]
  have hmishape : attr STUN_ATTR_MESSAGE_INTEGRITY MI =
      b16 STUN_ATTR_MESSAGE_INTEGRITY ++ (b16 20 ++ MI) := by
    simp [attr, hmiL, attr_pad]
  rw [hmishape]
  rw [read16_b16 _ _ (by norm_num [STUN_ATTR_MESSAGE_INTEGRITY])]
  simp only [Option.some_bind]
  rw [read16_b16 20 _ (by norm_num)]
  simp only [Option.some_bind]
  simp only [if_true]
  rw [hA]
  rw [show encode_attrs m.attrs = enc_items (attr_items m.attrs) from rfl]
  rw [parse_enc_items_self (attr_items m.attrs) empty_attrs (attr_items_bounds m.attrs husr)]
  rw [apply_attr_items m.attrs hpr hcd hcg hmp]
  simp only [Option.some_bind]
  rw [hTY]
  rw [decode_class_encode, decode_method_encode _ _ hme]

/-- C8: for every STUN message produced by the encoder, the output length is a
multiple of 4, and decoding the produced bytes yields the same class, method,
transaction id and attribute set, with both FINGERPRINT and MESSAGE-INTEGRITY
verifying successfully (`stun_read` returns `none` whenever either check
fails, so `some m` entails both verified). -/
theorem c8_stun_codec_roundtrip
    (hmac : List Nat → List Nat → List Nat) (crc : List Nat → Nat)
    (key : List Nat) (m : stun_message)
    (hhm : ∀ k d, (hmac k d).length = 20)
    (htx : m.transaction_id.length = 12)
    (hme : m.msg_method < 4096)
    (hlen : (encode_attrs m.attrs).length + 32 < 2 ^ 16)
    (husr : ∀ u, m.attrs.username = some u → u.length < 2 ^ 16)
    (hpr : ∀ x, m.attrs.priority = some x → x < 2 ^ 32)
    (hcd : ∀ x, m.attrs.ice_controlled = some x → x < 2 ^ 64)
    (hcg : ∀ x, m.attrs.ice_controlling = some x → x < 2 ^ 64)
    (hmp : ∀ pr, m.attrs.mapped = some pr → pr.1 < 2 ^ 16 ∧ pr.2 < 2 ^ 32) :
    (stun_write hmac crc key m).length % 4 = 0 ∧
    stun_read hmac crc key (stun_write hmac crc key m) = some m :=
  ⟨stun_write_mod4 hmac crc key m hhm htx,
   stun_read_write hmac crc key m hhm htx hme hlen husr hpr hcd hcg hmp⟩

/-- A stand-in 20-byte HMAC used to instantiate the round-trip theorem. -/
def dummy_hmac : List Nat → List Nat → List Nat := fun _ _ => List.replicate 20 7

/-- A stand-in CRC used to instantiate the round-trip theorem. -/
def dummy_crc : List Nat → Nat := fun l => l.length

/-- A concrete Binding request exercising every supported attribute. -/
def stun_witness_msg : stun_message :=
  { msg_class := stun_class.request
    msg_method := 1
    transaction_id := [1, 2, 3, 4, 5, 6, 7, 8, 9, 10, 11, 12]
    attrs :=
      { username := some [97, 98]
        priority := some 12345
        ice_controlled := some 777
        ice_controlling := none
        use_candidate := true
        mapped := some (3478, 2130706433)
        error_code := some 487 } }

/-- C8 witness: the round-trip theorem applied to a concrete Binding request
with stand-in crypto primitives. -/
theorem c8_roundtrip_witness :
    (stun_write dummy_hmac dummy_crc [9] stun_witness_msg).length % 4 = 0 ∧
    stun_read dummy_hmac dummy_crc [9]
        (stun_write dummy_hmac dummy_crc [9] stun_witness_msg) =
      some stun_witness_msg := by
  apply c8_stun_codec_roundtrip
  · intro k d
    simp [dummy_hmac]
  · rfl
  · decide
  · decide
  · intro u hu
    rw [show stun_witness_msg.attrs.username = some [97, 98] from rfl] at hu
    injection hu with h
    subst h
    decide
  · intro x hx
    rw [show stun_witness_msg.attrs.priority = some 12345 from rfl] at hx
    injection hx with h
    subst h
    decide
  · intro x hx
    rw [show stun_witness_msg.attrs.ice_controlled = some 777 from rfl] at hx
    injection hx with h
    subst h
    decide
  · intro x hx
    simp [stun_witness_msg] at hx
  · intro pr hpr2
    rw [show stun_witness_msg.attrs.mapped = some (3478, 2130706433) from rfl] at hpr2
    injection hpr2 with h
    subst h
    decide
